import Mathlib

/-!
Shallow embedding of the Spectral_Denoising_FrontEnd repository
(`app.py`, `pipeline.py`, `spectral_denoising/spectra_plotter.py`).

A pandas `DataFrame` is modelled as a list of named columns, each column
being a list of cell values.  Cell values are the Python scalars the code
inspects: `NaN`, `None`, strings (kept as lists of characters) and opaque
other scalar objects.  External library functions that the repository
imports but does not define (`spectral_denoising_batch` from the external
`spectral_denoising` package, RDKit's `Chem.MolFromSmiles`) appear as
parameters of the definitions that call them, so every theorem below is
quantified over their behaviour.
-/

namespace SD

abbrev Chars := List Char

/-- A scalar cell value of a DataFrame: `NaN` (float nan / pandas missing
value), Python `None`, a string, or any other opaque scalar object
(indexed by a natural number). -/
inductive Cell where
  | nan : Cell
  | pynone : Cell
  | str : Chars → Cell
  | val : Nat → Cell
deriving DecidableEq

/-- A DataFrame: a list of named columns (pandas column order is kept). -/
abbrev DataFrame := List (String × List Cell)

/-- `df.columns`. -/
def colNames (df : DataFrame) : List String := df.map Prod.fst

/-- `df[n]` as column lookup (first column with that label); `none` models
the `KeyError` / `n not in df.columns` situation. -/
def getCol? (df : DataFrame) (n : String) : Option (List Cell) :=
  (df.find? fun p => p.1 == n).map Prod.snd

/-- `df[n] = v`: replace the column labelled `n` if present, otherwise
append a new column at the end (pandas assignment semantics). -/
def setCol : DataFrame → String → List Cell → DataFrame
  | [], n, v => [(n, v)]
  | p :: rest, n, v => if p.1 = n then (n, v) :: rest else p :: setCol rest n v

/-- Python `str.lower` (ASCII model, as used on column names). -/
def pyLower (s : String) : String := String.mk (s.data.map Char.toLower)

/-- `df.columns = [col.lower() for col in df.columns]`. -/
def lowerCols (df : DataFrame) : DataFrame := df.map fun p => (pyLower p.1, p.2)

/-- A raised Python exception, carrying `str(e)`. -/
inductive PyExc where
  | mk : String → PyExc
deriving DecidableEq

/-- `str(e)` for an exception. -/
def excMsg : PyExc → String
  | .mk m => m

instance {ε α : Type} [DecidableEq ε] [DecidableEq α] : DecidableEq (Except ε α) :=
  fun a b =>
    match a, b with
    | .ok x, .ok y =>
      if h : x = y then isTrue (by rw [h]) else isFalse (by intro hc; cases hc; exact h rfl)
    | .error x, .error y =>
      if h : x = y then isTrue (by rw [h]) else isFalse (by intro hc; cases hc; exact h rfl)
    | .ok _, .error _ => isFalse (by intro hc; cases hc)
    | .error _, .ok _ => isFalse (by intro hc; cases hc)

/-- `pipeline.denoising_pipeline(input_df, mass_error)`.

The first component of the result is the final state of the caller's
`input_df` (the function mutates it in place by reassigning
`input_df.columns` to the lower-cased names before anything else); the
second component is the returned DataFrame, or the exception raised when
one of the three column lookups fails.  `spectral_denoising_batch` is the
external batch denoiser and `mass_error` is passed through to it
untouched (hence an arbitrary type `τ`). -/
def denoising_pipeline {τ : Type}
    (spectral_denoising_batch : List Cell → List Cell → List Cell → τ → List Cell)
    (mass_error : τ) (input_df : DataFrame) : DataFrame × Except PyExc DataFrame :=
  let dfL := lowerCols input_df
  (dfL,
    match getCol? dfL "peaks" with
    | none => Except.error (PyExc.mk "KeyError: peaks")
    | some peaks =>
      match getCol? dfL "smiles" with
      | none => Except.error (PyExc.mk "KeyError: smiles")
      | some smiles =>
        match getCol? dfL "adducts" with
        | none => Except.error (PyExc.mk "KeyError: adducts")
        | some adducts =>
          Except.ok (setCol dfL "denoised_peaks"
            (spectral_denoising_batch peaks smiles adducts mass_error)))

/-! ## `app.py` : `SpectralDenoisingGUI` input handling -/

/-- The `column_mapping` dictionary of `standardize_columns` (`app.py`),
as a lookup on an (already lower-cased) column name. -/
def column_mapping (s : String) : Option String :=
  if s = "msms" ∨ s = "ms/ms" ∨ s = "peak" ∨ s = "peaks" ∨ s = "spectra" ∨ s = "spectrum" then
    some "peaks"
  else if s = "smile" ∨ s = "smiles" then some "smiles"
  else if s = "adduct" ∨ s = "adducts" then some "adducts"
  else none

/-- `standardize_columns` (`app.py`): rename every column whose
lower-cased name is a key of the mapping; leave the others alone. -/
def standardize_columns (df : DataFrame) : DataFrame :=
  df.map fun p =>
    match column_mapping (pyLower p.1) with
    | some n => (n, p.2)
    | none => p

/-- `pat` matches literally at the head of `s`. -/
def listStartsWith : Chars → Chars → Bool
  | [], _ => true
  | _ :: _, [] => false
  | p :: ps, c :: cs => p == c && listStartsWith ps cs

/-- The greedy capture of `([^"]+)`: the maximal leading run of
non-double-quote characters. -/
def captureRun (s : Chars) : Chars := s.takeWhile fun c => !(c == '"')

def computedPat : Chars := String.toList "computed SMILES="

def smilesPat : Chars := String.toList "SMILES="

/-- `re.search(pat + r'([^\x22]+)', s)` for a literal `pat`: scan left to
right; at the first position where the literal pattern matches and is
followed by at least one non-quote character, return the greedy capture
group. -/
def reSearchCapture (pat : Chars) : Chars → Option Chars
  | [] => none
  | c :: rest =>
    if listStartsWith pat (c :: rest) && !(captureRun ((c :: rest).drop pat.length)).isEmpty then
      some (captureRun ((c :: rest).drop pat.length))
    else reSearchCapture pat rest

/-- Whitespace removed by Python `str.strip()` (ASCII model). -/
def isPySpace (c : Char) : Bool :=
  c == ' ' || c == '\t' || c == '\n' || c == '\r' || c == '\x0b' || c == '\x0c'

/-- Python `str.strip()`. -/
def pyStrip (s : Chars) : Chars :=
  ((s.dropWhile isPySpace).reverse.dropWhile isPySpace).reverse

/-- `extract_smiles_from_comments` (`app.py`): `None` for a missing or
non-string cell; otherwise try `computed SMILES=([^\x22]+)` first, then
`SMILES=([^\x22]+)`, stripping the captured group. -/
def extract_smiles_from_comments (comments_str : Cell) : Option Chars :=
  match comments_str with
  | Cell.str s =>
    match reSearchCapture computedPat s with
    | some g => some (pyStrip g)
    | none =>
      match reSearchCapture smilesPat s with
      | some g => some (pyStrip g)
      | none => none
  | _ => none

/-- Result of `.apply(extract_smiles_from_comments)` on one cell: a
Python `None` return value is stored as a `None` object in the column. -/
def optCell : Option Chars → Cell
  | some s => Cell.str s
  | none => Cell.pynone

/-- `fill_missing_smiles` (`app.py`): when there is no `smiles` column
and there is a `comments` column, add `smiles` as
`df['comments'].apply(extract_smiles_from_comments)`; otherwise return
the frame unchanged (`'comments' in df.columns` iff the lookup succeeds). -/
def fill_missing_smiles (df : DataFrame) : DataFrame :=
  if "smiles" ∉ colNames df then
    match getCol? df "comments" with
    | some cm => setCol df "smiles" (cm.map fun c => optCell (extract_smiles_from_comments c))
    | none => df
  else df

/-- `pd.isna` on a scalar cell. -/
def cellIsNA : Cell → Bool
  | .nan => true
  | .pynone => true
  | _ => false

/-- Python `str(cell)`, as fed to `Chem.MolFromSmiles`. -/
def pyStr : Cell → Chars
  | .nan => String.toList "nan"
  | .pynone => String.toList "None"
  | .str s => s
  | .val n => String.toList (toString n)

/-- One iteration of the loop in `validate_smiles`: the row is invalid
iff `pd.isna(smiles)` or `Chem.MolFromSmiles(str(smiles))` is `None`
(`mol` is the behaviour of RDKit, `true` meaning a molecule was parsed). -/
def rowInvalid (mol : Chars → Bool) (c : Cell) : Bool :=
  cellIsNA c || !(mol (pyStr c))

/-- `validate_smiles` (`app.py`).  `mol` is the behaviour of
`Chem.MolFromSmiles`; `resp` is the user's answer to
`messagebox.askyesno`.  `none` models `return None`. -/
def validate_smiles (mol : Chars → Bool) (resp : Bool) (df : DataFrame) : Option DataFrame :=
  match getCol? df "smiles" with
  | none => some df
  | some sm =>
    let bad := (sm.enum.filter fun q => rowInvalid mol q.2).map Prod.fst
    if bad.isEmpty then some df
    else if resp then
      some (df.map fun p => (p.1, (p.2.enum.filter fun q => !(decide (q.1 ∈ bad))).map Prod.snd))
    else none

/-- Outcome of the DataFrame branch of `load_file` (`app.py`): the final
`self.loaded_data`, the "Invalid File Format" error dialog (carrying the
names of the missing columns) when shown, and whether the success
message box was reached. -/
structure LoadResult where
  loaded_data : Option DataFrame
  errorDialogMissing : Option (List String)
  successShown : Bool
deriving DecidableEq

def required_columns : List String := ["peaks", "smiles", "adducts"]

/-- The DataFrame part of `load_file` (`app.py`), given the frame `df0`
the file reader produced: standardize columns, fill missing SMILES from
comments, validate SMILES, then check the three required columns. -/
def loadFileProcess (mol : Chars → Bool) (resp : Bool) (df0 : DataFrame) : LoadResult :=
  let df1 := standardize_columns df0
  let df2 := fill_missing_smiles df1
  match validate_smiles mol resp df2 with
  | none => { loaded_data := none, errorDialogMissing := none, successShown := false }
  | some df3 =>
    let missing := required_columns.filter fun c => decide (c ∉ colNames df3)
    if missing.isEmpty then
      { loaded_data := some df3, errorDialogMissing := none, successShown := true }
    else
      { loaded_data := none, errorDialogMissing := some missing, successShown := false }

/-- What an `except Exception` handler of `app.py` does: log an error
message and show an error message box; the processing-thread handler
also resets the progress bar. -/
structure HandlerEffects where
  loggedError : Option String
  errorDialog : Option String
  progressReset : Bool
deriving DecidableEq

/-- The `try/except` of `load_file`: the body (reading the file and all
subsequent processing, any part of which may raise) either produces a
result or raises; the wrapper catches and returns normally. -/
def load_file_guarded (body : Except PyExc LoadResult) :
    Except PyExc (Option LoadResult × HandlerEffects) :=
  match body with
  | .ok r => .ok (some r, ⟨none, none, false⟩)
  | .error e =>
    .ok (none, ⟨some ("Error loading file: " ++ excMsg e),
                some ("Failed to load file:\n" ++ excMsg e), false⟩)

/-- The `try/except` of `_process_data_thread` (`app.py`). -/
def process_thread_guarded (body : Except PyExc Unit) : Except PyExc HandlerEffects :=
  match body with
  | .ok _ => .ok ⟨none, none, false⟩
  | .error e =>
    .ok ⟨some ("Error during processing: " ++ excMsg e),
         some ("Processing failed:\n" ++ excMsg e), true⟩

/-- Operations the GUI could perform on a `threading.Thread`. -/
inductive ThreadOp where
  | start : String → ThreadOp
  | join : String → ThreadOp
  | cancel : String → ThreadOp
deriving DecidableEq

structure ProcessDataResult where
  dialogs : List String
  threadOps : List ThreadOp
deriving DecidableEq

/-- `process_data` (`app.py`): two guard clauses, then start exactly one
background thread with target `_process_data_thread` and return. -/
def process_data (loaded_data : Option DataFrame) (output_file_path : String) :
    ProcessDataResult :=
  match loaded_data with
  | none => { dialogs := ["Please load a file first"], threadOps := [] }
  | some _ =>
    if output_file_path = "" then
      { dialogs := ["No output path specified"], threadOps := [] }
    else
      { dialogs := [], threadOps := [ThreadOp.start "_process_data_thread"] }

/-! ## `spectra_plotter.py` : the `is float` guard of `head_to_tail_plot` -/

/-- Python class objects; the guard only ever mentions `float`. -/
inductive PyClass where
  | float
  | other : Nat → PyClass
deriving DecidableEq

/-- A Python value as passed for `msms1` / `msms2`: a float instance, a
string, an opaque array or other object, `None`, or a class object
itself (classes are first-class values in Python). -/
inductive PyVal where
  | floatInst : Nat → PyVal
  | strInst : Chars → PyVal
  | arrInst : Nat → PyVal
  | noneV : PyVal
  | cls : PyClass → PyVal
deriving DecidableEq

/-- Python `x is float`: object identity with the builtin class `float`. -/
def pyIsFloatClass : PyVal → Bool
  | .cls .float => true
  | _ => false

/-- The guard `msms1 is float or msms2 is float` of `head_to_tail_plot`. -/
def h2t_guard (msms1 msms2 : PyVal) : Bool :=
  pyIsFloatClass msms1 || pyIsFloatClass msms2

/-- The early-return prefix of `head_to_tail_plot`: `some 0` models
`return(0)` taken at the guard, `none` models falling through to the
rest of the function. -/
def head_to_tail_early (msms1 msms2 : PyVal) : Option Nat :=
  if h2t_guard msms1 msms2 then some 0 else none

/-! ## Specification-side descriptions used in the claim statements -/

/-- Position test for the regex search: the literal pattern matches at
position `i` of `s` and is followed by at least one non-quote character. -/
def matchAt (pat s : Chars) (i : Nat) : Bool :=
  listStartsWith pat (s.drop i) && !(captureRun (s.drop (i + pat.length))).isEmpty

/-- The capture group of the regex at position `i`: the maximal run of
non-quote characters after the pattern occurrence. -/
def capAt (pat s : Chars) (i : Nat) : Chars := captureRun (s.drop (i + pat.length))

/-- The rows kept by the claim's description of `validate_smiles`: the
cells of a column `v` at exactly those positions whose SMILES cell (same
position in `sm`) is valid. -/
def keepValidRows (mol : Chars → Bool) (sm v : List Cell) : List Cell :=
  ((sm.zip v).filter fun q => !(rowInvalid mol q.1)).map Prod.snd

/-! ## Concrete data for counterexamples and witnesses -/

def c1batch : List Cell → List Cell → List Cell → Nat → List Cell := fun _ _ _ _ => [Cell.val 99]

def c1df : DataFrame :=
  [("peaks", [Cell.val 1]), ("smiles", [Cell.str []]), ("adducts", [Cell.val 2]),
   ("denoised_peaks", [Cell.val 3])]

def c1wdf : DataFrame :=
  [("Peaks", [Cell.val 1]), ("SMILES", [Cell.str []]), ("adducts", [Cell.val 2])]

def c9batch : List Cell → List Cell → List Cell → Nat → List Cell := fun _ _ _ _ => [Cell.val 7]

def c9df : DataFrame :=
  [("PEAKS", [Cell.nan]), ("smiles", [Cell.nan]), ("adducts", [Cell.nan])]

/-- A concrete `Chem.MolFromSmiles` behaviour: rejects the empty string. -/
def c3mol : Chars → Bool := fun s => !s.isEmpty

def c3sm : List Cell := [Cell.str [], Cell.str ['C']]

def c3df : DataFrame := [("smiles", c3sm), ("peaks", [Cell.val 0, Cell.val 1])]

/-! ## Theorems -/

lemma colNames_lowerCols (df : DataFrame) :
    colNames (lowerCols df) = (colNames df).map pyLower := by
  induction df with
  | nil => rfl
  | cons p t ih => simp [colNames, lowerCols] at ih ⊢

lemma getCol?_eq_none_iff (df : DataFrame) (n : String) :
    getCol? df n = none ↔ n ∉ colNames df := by
  induction df with
  | nil => simp [getCol?, colNames]
  | cons p t ih =>
    by_cases h : p.1 = n
    · simp [getCol?, colNames, List.find?, h]
    · simp only [getCol?, colNames, List.map_cons, List.find?, List.mem_cons] at *
      have hb : (p.1 == n) = false := by simpa using h
      rw [hb]
      simp only [Option.map_eq_none'] at ih ⊢
      constructor
      · intro hf hc
        rcases hc with hc | hc
        · exact h hc.symm
        · exact (ih.mp hf) hc
      · intro hc
        exact ih.mpr fun hm => hc (Or.inr hm)

lemma getCol?_isSome_of_mem (df : DataFrame) (n : String) (h : n ∈ colNames df) :
    ∃ v, getCol? df n = some v := by
  cases hg : getCol? df n with
  | none => exact absurd ((getCol?_eq_none_iff df n).mp hg) (by simpa using h)
  | some v => exact ⟨v, rfl⟩

lemma setCol_of_not_mem (df : DataFrame) (n : String) (v : List Cell)
    (h : n ∉ colNames df) : setCol df n v = df ++ [(n, v)] := by
  induction df with
  | nil => rfl
  | cons p t ih =>
    simp only [colNames, List.map_cons, List.mem_cons] at h
    push_neg at h
    have hne : ¬ p.1 = n := fun hc => h.1 hc.symm
    rw [setCol, if_neg hne, ih (by simpa [colNames] using h.2)]
    rfl

/-- C9: `denoising_pipeline` is not side-effect free on its argument: it
reassigns `input_df.columns` to the lower-cased names before taking the
copy on which the result is built, so after the call the caller's
DataFrame has lower-cased column names (all cell values unchanged), even
though the returned object is a distinct copy (the returned frame is not
the caller's mutated frame). -/
theorem c9_pipeline_mutates_caller {τ : Type}
    (batch : List Cell → List Cell → List Cell → τ → List Cell) (tol : τ) (df : DataFrame) :
    colNames (denoising_pipeline batch tol df).1 = (colNames df).map pyLower
    ∧ (denoising_pipeline batch tol df).1.map Prod.snd = df.map Prod.snd
    ∧ ("denoised_peaks" ∉ (colNames df).map pyLower →
        ∀ out, (denoising_pipeline batch tol df).2 = Except.ok out →
          out ≠ (denoising_pipeline batch tol df).1) := by
  have hfst : (denoising_pipeline batch tol df).1 = lowerCols df := rfl
  refine ⟨by rw [hfst]; exact colNames_lowerCols df, ?_, ?_⟩
  · rw [hfst]
    induction df with
    | nil => rfl
    | cons p t ih => simp [lowerCols]
  · intro hd out hout
    rw [hfst]
    have hd2 : "denoised_peaks" ∉ colNames (lowerCols df) := by
      rw [colNames_lowerCols]; exact hd
    cases hp : getCol? (lowerCols df) "peaks" with
    | none => simp [denoising_pipeline, hp] at hout
    | some pk =>
      cases hs : getCol? (lowerCols df) "smiles" with
      | none => simp [denoising_pipeline, hp, hs] at hout
      | some sl =>
        cases ha : getCol? (lowerCols df) "adducts" with
        | none => simp [denoising_pipeline, hp, hs, ha] at hout
        | some ad =>
          have hform : out = setCol (lowerCols df) "denoised_peaks" (batch pk sl ad tol) := by
            simp [denoising_pipeline, hp, hs, ha] at hout
            exact hout.symm
          rw [hform, setCol_of_not_mem _ _ _ hd2]
          intro hcontra
          have hlen := congrArg List.length hcontra
          simp at hlen

/-- Witness for C9 at a concrete frame and batch function: the caller's
frame ends up lower-cased and the returned frame differs from it. -/
theorem c9_witness :
    colNames (denoising_pipeline c9batch 0 c9df).1 = (colNames c9df).map pyLower
    ∧ ([("peaks", [Cell.nan]), ("smiles", [Cell.nan]), ("adducts", [Cell.nan]),
        ("denoised_peaks", [Cell.val 7])] : DataFrame) ≠ (denoising_pipeline c9batch 0 c9df).1 :=
  ⟨(c9_pipeline_mutates_caller c9batch 0 c9df).1,
   (c9_pipeline_mutates_caller c9batch 0 c9df).2.2 (by decide) _ (by decide)⟩

/-- C1 counterexample: on an input that already has a `denoised_peaks`
column, `denoising_pipeline` overwrites that column (4 columns out),
instead of returning the lower-cased input plus one added column
(5 columns) as the claim states. -/
theorem c1_counterexample :
    (denoising_pipeline c1batch 0 c1df).2
      = Except.ok [("peaks", [Cell.val 1]), ("smiles", [Cell.str []]),
          ("adducts", [Cell.val 2]), ("denoised_peaks", [Cell.val 99])]
    ∧ (denoising_pipeline c1batch 0 c1df).2
      ≠ Except.ok (lowerCols c1df
          ++ [("denoised_peaks", c1batch [Cell.val 1] [Cell.str []] [Cell.val 2] 0)]) :=
  ⟨by decide, by decide⟩

/-- C1 (amended): for every input DataFrame with pairwise distinct
lower-cased column names that include `peaks`, `smiles` and `adducts`
and do not include `denoised_peaks`, `denoising_pipeline` returns the
input with all column names lower-cased plus exactly one added column
`denoised_peaks` holding `spectral_denoising_batch` applied to those
three columns and the mass tolerance; every other column's values are
unchanged. -/
theorem c1_pipeline_amended {τ : Type}
    (batch : List Cell → List Cell → List Cell → τ → List Cell) (tol : τ) (df : DataFrame)
    (_hnd : ((colNames df).map pyLower).Nodup)
    (hp : "peaks" ∈ (colNames df).map pyLower)
    (hs : "smiles" ∈ (colNames df).map pyLower)
    (ha : "adducts" ∈ (colNames df).map pyLower)
    (hnew : "denoised_peaks" ∉ (colNames df).map pyLower) :
    ∃ p s a, getCol? (lowerCols df) "peaks" = some p
      ∧ getCol? (lowerCols df) "smiles" = some s
      ∧ getCol? (lowerCols df) "adducts" = some a
      ∧ (denoising_pipeline batch tol df).2
        = Except.ok (lowerCols df ++ [("denoised_peaks", batch p s a tol)]) := by
  have hcols := colNames_lowerCols df
  obtain ⟨p, hpc⟩ := getCol?_isSome_of_mem (lowerCols df) "peaks" (by rw [hcols]; exact hp)
  obtain ⟨s, hsc⟩ := getCol?_isSome_of_mem (lowerCols df) "smiles" (by rw [hcols]; exact hs)
  obtain ⟨a, hac⟩ := getCol?_isSome_of_mem (lowerCols df) "adducts" (by rw [hcols]; exact ha)
  refine ⟨p, s, a, hpc, hsc, hac, ?_⟩
  simp only [denoising_pipeline, hpc, hsc, hac]
  rw [setCol_of_not_mem _ _ _ (by rw [hcols]; exact hnew)]

/-- Witness for the amended C1 at a concrete frame. -/
theorem c1_witness :
    (((colNames c1wdf).map pyLower).Nodup
      ∧ "peaks" ∈ (colNames c1wdf).map pyLower
      ∧ "smiles" ∈ (colNames c1wdf).map pyLower
      ∧ "adducts" ∈ (colNames c1wdf).map pyLower
      ∧ "denoised_peaks" ∉ (colNames c1wdf).map pyLower)
    ∧ ∃ p s a, getCol? (lowerCols c1wdf) "peaks" = some p
      ∧ getCol? (lowerCols c1wdf) "smiles" = some s
      ∧ getCol? (lowerCols c1wdf) "adducts" = some a
      ∧ (denoising_pipeline c1batch 0 c1wdf).2
        = Except.ok (lowerCols c1wdf ++ [("denoised_peaks", c1batch p s a 0)]) :=
  ⟨⟨by decide, by decide, by decide, by decide, by decide⟩,
   c1_pipeline_amended c1batch 0 c1wdf (by decide) (by decide) (by decide) (by decide) (by decide)⟩

lemma column_mapping_peaks (s : String)
    (h : s ∈ ["msms", "ms/ms", "peak", "peaks", "spectra", "spectrum"]) :
    column_mapping s = some "peaks" := by
  fin_cases h <;> decide

lemma column_mapping_smiles (s : String) (h : s ∈ ["smile", "smiles"]) :
    column_mapping s = some "smiles" := by
  fin_cases h <;> decide

lemma column_mapping_adducts (s : String) (h : s ∈ ["adduct", "adducts"]) :
    column_mapping s = some "adducts" := by
  fin_cases h <;> decide

lemma column_mapping_none (s : String)
    (h : s ∉ ["msms", "ms/ms", "peak", "peaks", "spectra", "spectrum",
        "smile", "smiles", "adduct", "adducts"]) :
    column_mapping s = none := by
  simp only [List.mem_cons, List.mem_singleton, not_or] at h
  obtain ⟨h1, h2, h3, h4, h5, h6, h7, h8, h9, h10⟩ := h
  simp [column_mapping, h1, h2, h3, h4, h5, h6, h7, h8, h9, h10]

/-- C2: `standardize_columns` renames exactly those columns whose
lower-cased name is one of `msms`, `ms/ms`, `peak`, `peaks`, `spectra`,
`spectrum` (to `peaks`), `smile`, `smiles` (to `smiles`), `adduct`,
`adducts` (to `adducts`); every column not in this set keeps its
original name, and no cell values are changed. -/
theorem c2_standardize_columns (df : DataFrame) (i : Nat) (n : String) (v : List Cell)
    (h : df[i]? = some (n, v)) :
    (standardize_columns df).length = df.length
    ∧ ∃ m, (standardize_columns df)[i]? = some (m, v)
      ∧ (pyLower n ∈ ["msms", "ms/ms", "peak", "peaks", "spectra", "spectrum"] → m = "peaks")
      ∧ (pyLower n ∈ ["smile", "smiles"] → m = "smiles")
      ∧ (pyLower n ∈ ["adduct", "adducts"] → m = "adducts")
      ∧ (pyLower n ∉ ["msms", "ms/ms", "peak", "peaks", "spectra", "spectrum",
          "smile", "smiles", "adduct", "adducts"] → m = n) := by
  refine ⟨by simp [standardize_columns], ?_⟩
  cases hc : column_mapping (pyLower n) with
  | some u =>
    refine ⟨u, ?_, ?_, ?_, ?_, ?_⟩
    · simp [standardize_columns, List.getElem?_map, h, hc]
    · intro hm
      exact (Option.some.inj (hc.symm.trans (column_mapping_peaks _ hm))).symm ▸ rfl
    · intro hm
      exact (Option.some.inj (hc.symm.trans (column_mapping_smiles _ hm))).symm ▸ rfl
    · intro hm
      exact (Option.some.inj (hc.symm.trans (column_mapping_adducts _ hm))).symm ▸ rfl
    · intro hm
      rw [column_mapping_none _ hm] at hc
      cases hc
  | none =>
    refine ⟨n, ?_, ?_, ?_, ?_, fun _ => rfl⟩
    · simp [standardize_columns, List.getElem?_map, h, hc]
    · intro hm; rw [column_mapping_peaks _ hm] at hc; cases hc
    · intro hm; rw [column_mapping_smiles _ hm] at hc; cases hc
    · intro hm; rw [column_mapping_adducts _ hm] at hc; cases hc

/-- Witness for C2 at a concrete frame: the `MSMS` column is renamed to
`peaks` with its cells untouched. -/
theorem c2_witness :
    (([("MSMS", [Cell.val 1])] : DataFrame)[0]? = some ("MSMS", [Cell.val 1]))
    ∧ ((standardize_columns [("MSMS", [Cell.val 1])]).length
        = ([("MSMS", [Cell.val 1])] : DataFrame).length
      ∧ ∃ m, (standardize_columns [("MSMS", [Cell.val 1])])[0]? = some (m, [Cell.val 1])
        ∧ (pyLower "MSMS" ∈ ["msms", "ms/ms", "peak", "peaks", "spectra", "spectrum"] →
            m = "peaks")
        ∧ (pyLower "MSMS" ∈ ["smile", "smiles"] → m = "smiles")
        ∧ (pyLower "MSMS" ∈ ["adduct", "adducts"] → m = "adducts")
        ∧ (pyLower "MSMS" ∉ ["msms", "ms/ms", "peak", "peaks", "spectra", "spectrum",
            "smile", "smiles", "adduct", "adducts"] → m = "MSMS")) :=
  ⟨by decide, c2_standardize_columns [("MSMS", [Cell.val 1])] 0 "MSMS" [Cell.val 1] (by decide)⟩

/-- C5: in `load_file`, after column standardization, SMILES filling and
SMILES validation, if any of the three required columns `peaks`,
`smiles`, `adducts` is absent from the DataFrame, the load fails:
`loaded_data` is set to `None`, an error dialog naming exactly the
missing required columns is shown, and the function returns without
reporting success. -/
theorem c5_load_missing_columns (mol : Chars → Bool) (resp : Bool) (df0 df3 : DataFrame)
    (hv : validate_smiles mol resp (fill_missing_smiles (standardize_columns df0)) = some df3)
    (hmiss : ∃ c ∈ required_columns, c ∉ colNames df3) :
    (loadFileProcess mol resp df0).loaded_data = none
    ∧ (loadFileProcess mol resp df0).errorDialogMissing
        = some (required_columns.filter fun c => decide (c ∉ colNames df3))
    ∧ (∀ c, c ∈ required_columns.filter (fun c => decide (c ∉ colNames df3)) ↔
        (c ∈ required_columns ∧ c ∉ colNames df3))
    ∧ (loadFileProcess mol resp df0).successShown = false := by
  have hne : (required_columns.filter fun c => decide (c ∉ colNames df3)).isEmpty = false := by
    obtain ⟨c, hc, hnc⟩ := hmiss
    have hmem : c ∈ required_columns.filter fun c => decide (c ∉ colNames df3) :=
      List.mem_filter.mpr ⟨hc, by simpa using hnc⟩
    cases hfe : required_columns.filter fun c => decide (c ∉ colNames df3) with
    | nil => rw [hfe] at hmem; cases hmem
    | cons a l => simp
  refine ⟨?_, ?_, ?_, ?_⟩
  · simp only [loadFileProcess, hv]
    rw [hne]
    simp
  · simp only [loadFileProcess, hv]
    rw [hne]
    simp
  · intro c
    simp [List.mem_filter]
  · simp only [loadFileProcess, hv]
    rw [hne]
    simp

/-- Witness for C5: a frame with only an `msms` column fails the check
with `smiles` and `adducts` reported missing. -/
theorem c5_witness :
    validate_smiles (fun _ => true) true
        (fill_missing_smiles (standardize_columns [("msms", [Cell.val 0])]))
      = some [("peaks", [Cell.val 0])]
    ∧ (loadFileProcess (fun _ => true) true [("msms", [Cell.val 0])]).loaded_data = none
    ∧ (loadFileProcess (fun _ => true) true [("msms", [Cell.val 0])]).errorDialogMissing
        = some (required_columns.filter fun c =>
            decide (c ∉ colNames [("peaks", [Cell.val 0])]))
    ∧ (loadFileProcess (fun _ => true) true [("msms", [Cell.val 0])]).successShown = false :=
  ⟨by decide,
   (c5_load_missing_columns (fun _ => true) true [("msms", [Cell.val 0])]
      [("peaks", [Cell.val 0])] (by decide) ⟨"smiles", by decide, by decide⟩).1,
   (c5_load_missing_columns (fun _ => true) true [("msms", [Cell.val 0])]
      [("peaks", [Cell.val 0])] (by decide) ⟨"smiles", by decide, by decide⟩).2.1,
   (c5_load_missing_columns (fun _ => true) true [("msms", [Cell.val 0])]
      [("peaks", [Cell.val 0])] (by decide) ⟨"smiles", by decide, by decide⟩).2.2.2⟩

/-- C6: `fill_missing_smiles` adds a `smiles` column (obtained by
applying `extract_smiles_from_comments` to the `comments` column) only
when the frame lacks `smiles` and has `comments`; in every other case
the frame is returned unchanged, and in all cases no column other than
`smiles` is added, removed, or modified (the frame is either unchanged
or the original with one column appended). -/
theorem c6_fill_missing_smiles (df : DataFrame) :
    (∀ cm, "smiles" ∉ colNames df → getCol? df "comments" = some cm →
      fill_missing_smiles df
        = df ++ [("smiles", cm.map fun c => optCell (extract_smiles_from_comments c))])
    ∧ ("smiles" ∈ colNames df → fill_missing_smiles df = df)
    ∧ (getCol? df "comments" = none → fill_missing_smiles df = df) := by
  refine ⟨?_, ?_, ?_⟩
  · intro cm hs hcm
    rw [fill_missing_smiles, if_pos hs, hcm]
    show setCol df "smiles" (cm.map fun c => optCell (extract_smiles_from_comments c)) = _
    exact setCol_of_not_mem df _ _ hs
  · intro hs
    simp [fill_missing_smiles, hs]
  · intro hcm
    by_cases hs : "smiles" ∈ colNames df
    · simp [fill_missing_smiles, hs]
    · rw [fill_missing_smiles, if_pos hs, hcm]

/-- Witness for C6: a frame with only a `comments` column gets a
`smiles` column appended; extraction of a `None` comment yields `None`. -/
theorem c6_witness :
    "smiles" ∉ colNames [("comments", [Cell.pynone])]
    ∧ getCol? [("comments", [Cell.pynone])] "comments" = some [Cell.pynone]
    ∧ fill_missing_smiles [("comments", [Cell.pynone])]
        = [("comments", [Cell.pynone])]
          ++ [("smiles", [Cell.pynone].map fun c => optCell (extract_smiles_from_comments c))] :=
  ⟨by decide, by decide,
   (c6_fill_missing_smiles [("comments", [Cell.pynone])]).1 [Cell.pynone] (by decide) (by decide)⟩

/-- C7: every failure inside the `try` of `load_file` and of the
background `_process_data_thread` is handled by the `except` block with
a logged message and a message box and does not propagate: for every
body outcome the wrapped function returns normally, and on an exception
the handler's log line and dialog are produced. -/
theorem c7_try_except_no_propagation :
    (∀ body e, load_file_guarded body ≠ Except.error e)
    ∧ (∀ e, load_file_guarded (Except.error e)
        = Except.ok (none, ⟨some ("Error loading file: " ++ excMsg e),
            some ("Failed to load file:\n" ++ excMsg e), false⟩))
    ∧ (∀ body e, process_thread_guarded body ≠ Except.error e)
    ∧ (∀ e, process_thread_guarded (Except.error e)
        = Except.ok ⟨some ("Error during processing: " ++ excMsg e),
            some ("Processing failed:\n" ++ excMsg e), true⟩) := by
  refine ⟨?_, fun e => rfl, ?_, fun e => rfl⟩
  · intro body e h
    cases body <;> simp [load_file_guarded] at h
  · intro body e h
    cases body <;> simp [process_thread_guarded] at h

/-- Witness for C7 at a concrete raised exception. -/
theorem c7_witness :
    load_file_guarded (Except.error (PyExc.mk "boom")) ≠ Except.error (PyExc.mk "boom")
    ∧ load_file_guarded (Except.error (PyExc.mk "boom"))
        = Except.ok (none, ⟨some ("Error loading file: " ++ excMsg (PyExc.mk "boom")),
            some ("Failed to load file:\n" ++ excMsg (PyExc.mk "boom")), false⟩)
    ∧ process_thread_guarded (Except.error (PyExc.mk "boom"))
        = Except.ok ⟨some ("Error during processing: " ++ excMsg (PyExc.mk "boom")),
            some ("Processing failed:\n" ++ excMsg (PyExc.mk "boom")), true⟩ :=
  ⟨c7_try_except_no_propagation.1 (Except.error (PyExc.mk "boom")) (PyExc.mk "boom"),
   c7_try_except_no_propagation.2.1 (PyExc.mk "boom"),
   c7_try_except_no_propagation.2.2.2 (PyExc.mk "boom")⟩

/-- C8: each invocation of `process_data` with loaded data and a
non-empty output path starts exactly one background thread running
`_process_data_thread`, fire-and-forget: the emitted thread operations
contain no join and no cancel, and when `loaded_data` is `None` or the
output path is empty no thread is started. -/
theorem c8_process_data_thread (loaded_data : Option DataFrame) (output_file_path : String) :
    (∀ d, loaded_data = some d → output_file_path ≠ "" →
      (process_data loaded_data output_file_path).threadOps
        = [ThreadOp.start "_process_data_thread"])
    ∧ (loaded_data = none → (process_data loaded_data output_file_path).threadOps = [])
    ∧ (output_file_path = "" → (process_data loaded_data output_file_path).threadOps = [])
    ∧ (∀ t, ThreadOp.join t ∉ (process_data loaded_data output_file_path).threadOps)
    ∧ (∀ t, ThreadOp.cancel t ∉ (process_data loaded_data output_file_path).threadOps) := by
  refine ⟨?_, ?_, ?_, ?_, ?_⟩
  · intro d hd hp
    simp [process_data, hd, hp]
  · intro h
    simp [process_data, h]
  · intro h
    cases loaded_data <;> simp [process_data, h]
  · intro t
    cases loaded_data with
    | none => simp [process_data]
    | some d => by_cases hp : output_file_path = "" <;> simp [process_data, hp]
  · intro t
    cases loaded_data with
    | none => simp [process_data]
    | some d => by_cases hp : output_file_path = "" <;> simp [process_data, hp]

/-- Witness for C8 at concrete states: with data and a path one start
operation is emitted; with no data none is. -/
theorem c8_witness :
    (process_data (some [("peaks", [Cell.nan])]) "out.csv").threadOps
      = [ThreadOp.start "_process_data_thread"]
    ∧ (process_data none "out.csv").threadOps = []
    ∧ (∀ t, ThreadOp.join t ∉ (process_data (some [("peaks", [Cell.nan])]) "out.csv").threadOps) :=
  ⟨(c8_process_data_thread (some [("peaks", [Cell.nan])]) "out.csv").1 [("peaks", [Cell.nan])]
      rfl (by decide),
   (c8_process_data_thread none "out.csv").2.1 rfl,
   (c8_process_data_thread (some [("peaks", [Cell.nan])]) "out.csv").2.2.2.1⟩

/-- C10 counterexample: the guard `msms1 is float or msms2 is float`
does hold for one possible argument value, the builtin class object
`float` itself, where `head_to_tail_plot` takes the early `return(0)`
branch — so the branch is not unreachable for every input, contrary to
the claim. -/
theorem c10_counterexample :
    head_to_tail_early (PyVal.cls PyClass.float) (PyVal.strInst []) = some 0 := by
  decide

/-- C10 (amended): the guard compares the arguments by identity to the
type object `float`, so it holds exactly when an argument is the class
object `float` itself; for every other value — in particular every
float instance, string or array — it is false and the early `return(0)`
branch is not taken. -/
theorem c10_guard_only_class_float :
    (∀ m1 m2, head_to_tail_early m1 m2 = none ↔
      (m1 ≠ PyVal.cls PyClass.float ∧ m2 ≠ PyVal.cls PyClass.float))
    ∧ (∀ n, pyIsFloatClass (PyVal.floatInst n) = false)
    ∧ (∀ s, pyIsFloatClass (PyVal.strInst s) = false)
    ∧ (∀ n, pyIsFloatClass (PyVal.arrInst n) = false) := by
  have hg : ∀ m, pyIsFloatClass m = true ↔ m = PyVal.cls PyClass.float := by
    intro m
    rcases m with n | s | n | _ | c
    · simp [pyIsFloatClass]
    · simp [pyIsFloatClass]
    · simp [pyIsFloatClass]
    · simp [pyIsFloatClass]
    · rcases c with _ | k <;> simp [pyIsFloatClass]
  refine ⟨?_, fun n => rfl, fun s => rfl, fun n => rfl⟩
  intro m1 m2
  have h1 := hg m1
  have h2 := hg m2
  unfold head_to_tail_early h2t_guard
  cases hb1 : pyIsFloatClass m1 <;> cases hb2 : pyIsFloatClass m2 <;>
    simp_all

/-- Witness for the amended C10: two float instances never take the
early branch. -/
theorem c10_witness :
    head_to_tail_early (PyVal.floatInst 0) (PyVal.floatInst 1) = none
    ∧ pyIsFloatClass (PyVal.floatInst 0) = false :=
  ⟨(c10_guard_only_class_float.1 (PyVal.floatInst 0) (PyVal.floatInst 1)).mpr
      ⟨by decide, by decide⟩,
   c10_guard_only_class_float.2.1 0⟩

lemma capAt_cons (pat : Chars) (c : Char) (rest : Chars) (i : Nat) :
    capAt pat (c :: rest) (i + 1) = capAt pat rest i := by
  unfold capAt
  rw [show i + 1 + pat.length = (i + pat.length) + 1 from by omega]
  rfl

lemma matchAt_cons (pat : Chars) (c : Char) (rest : Chars) (i : Nat) :
    matchAt pat (c :: rest) (i + 1) = matchAt pat rest i := by
  unfold matchAt
  rw [show i + 1 + pat.length = (i + pat.length) + 1 from by omega]
  rfl

lemma matchAt_zero (pat s : Chars) :
    matchAt pat s 0
      = (listStartsWith pat s && !(captureRun (s.drop pat.length)).isEmpty) := by
  unfold matchAt
  rw [Nat.zero_add]
  rfl

lemma capAt_zero (pat s : Chars) : capAt pat s 0 = captureRun (s.drop pat.length) := by
  unfold capAt
  rw [Nat.zero_add]

lemma matchAt_nil (pat : Chars) (i : Nat) : matchAt pat [] i = false := by
  simp [matchAt, captureRun]

lemma reSearchCapture_eq_some_of (pat s : Chars) (i : Nat)
    (h : matchAt pat s i = true) (hmin : ∀ j < i, matchAt pat s j = false) :
    reSearchCapture pat s = some (capAt pat s i) := by
  induction s generalizing i with
  | nil => rw [matchAt_nil] at h; cases h
  | cons c rest ih =>
    cases i with
    | zero =>
      rw [matchAt_zero] at h
      simp only [reSearchCapture]
      rw [if_pos h, capAt_zero]
    | succ j =>
      have h0 : matchAt pat (c :: rest) 0 = false := hmin 0 (Nat.succ_pos j)
      rw [matchAt_zero] at h0
      simp only [reSearchCapture]
      rw [if_neg (by simp [h0]), capAt_cons]
      refine ih j ?_ ?_
      · rw [matchAt_cons] at h; exact h
      · intro j2 hj2
        have := hmin (j2 + 1) (by omega)
        rw [matchAt_cons] at this
        exact this

lemma reSearchCapture_eq_none_iff (pat s : Chars) :
    reSearchCapture pat s = none ↔ ∀ i, matchAt pat s i = false := by
  induction s with
  | nil =>
    constructor
    · intro _ i
      exact matchAt_nil pat i
    · intro _
      rfl
  | cons c rest ih =>
    constructor
    · intro h i
      by_cases hc : (listStartsWith pat (c :: rest)
          && !(captureRun ((c :: rest).drop pat.length)).isEmpty) = true
      · rw [reSearchCapture, if_pos hc] at h
        cases h
      · cases i with
        | zero =>
          rw [matchAt_zero]
          simpa using hc
        | succ j =>
          rw [matchAt_cons]
          rw [reSearchCapture, if_neg hc] at h
          exact ih.mp h j
    · intro h
      have h0 := h 0
      rw [matchAt_zero] at h0
      rw [reSearchCapture, if_neg (by simp [h0])]
      exact ih.mpr fun i => by
        have hi := h (i + 1)
        rw [matchAt_cons] at hi
        exact hi

lemma captureRun_cons_of_ne (c : Char) (rest : Chars) (hc : ¬ c = '"') :
    captureRun (c :: rest) = c :: captureRun rest := by
  simp [captureRun, List.takeWhile_cons, hc]

lemma captureRun_cons_quote (rest : Chars) : captureRun ('"' :: rest) = [] := by
  simp [captureRun, List.takeWhile_cons]

lemma captureRun_spec (l : Chars) :
    (∀ c ∈ captureRun l, c ≠ '"')
    ∧ l.take (captureRun l).length = captureRun l
    ∧ ((l.drop (captureRun l).length).head? = none
        ∨ (l.drop (captureRun l).length).head? = some '"') := by
  induction l with
  | nil => exact ⟨by simp [captureRun], rfl, Or.inl rfl⟩
  | cons c rest ih =>
    obtain ⟨ih1, ih2, ih3⟩ := ih
    by_cases hc : c = '"'
    · subst hc
      exact ⟨by simp [captureRun_cons_quote], by simp [captureRun_cons_quote], Or.inr (by
        simp [captureRun_cons_quote])⟩
    · rw [captureRun_cons_of_ne c rest hc]
      refine ⟨?_, ?_, ?_⟩
      · intro x hx
        rcases List.mem_cons.mp hx with rfl | hx2
        · exact hc
        · exact ih1 x hx2
      · simp only [List.length_cons, List.take_succ_cons]
        rw [ih2]
      · simp only [List.length_cons, List.drop_succ_cons]
        exact ih3

/-- C4: `extract_smiles_from_comments` returns `None` for every input
that is missing (`NaN`, `None`) or not a string; for a string it returns
the stripped capture at the leftmost position where `computed SMILES=`
is followed by a nonempty run of non-double-quote characters — the
capture being that maximal run — else the stripped capture at the
leftmost such position of the bare `SMILES=` pattern, and `None` when
neither pattern matches anywhere; the `computed SMILES=` pattern always
takes precedence over the bare one. -/
theorem c4_extract_smiles (cell : Cell) (s : Chars) (i : Nat) :
    ((∀ t, cell ≠ Cell.str t) → extract_smiles_from_comments cell = none)
    ∧ (extract_smiles_from_comments (Cell.str s) = none ↔
        ((∀ j, matchAt computedPat s j = false) ∧ (∀ j, matchAt smilesPat s j = false)))
    ∧ (matchAt computedPat s i = true → (∀ j < i, matchAt computedPat s j = false) →
        extract_smiles_from_comments (Cell.str s) = some (pyStrip (capAt computedPat s i)))
    ∧ ((∀ j, matchAt computedPat s j = false) → matchAt smilesPat s i = true →
        (∀ j < i, matchAt smilesPat s j = false) →
        extract_smiles_from_comments (Cell.str s) = some (pyStrip (capAt smilesPat s i)))
    ∧ (∀ pat, (∀ c ∈ capAt pat s i, c ≠ '"')
        ∧ (s.drop (i + pat.length)).take (capAt pat s i).length = capAt pat s i
        ∧ (((s.drop (i + pat.length)).drop (capAt pat s i).length).head? = none
            ∨ ((s.drop (i + pat.length)).drop (capAt pat s i).length).head? = some '"')) := by
  refine ⟨?_, ?_, ?_, ?_, ?_⟩
  · intro hc
    cases cell with
    | str t => exact absurd rfl (hc t)
    | nan => rfl
    | pynone => rfl
    | val n => rfl
  · cases h1 : reSearchCapture computedPat s with
    | some g =>
      have hno : ¬ ∀ j, matchAt computedPat s j = false := fun hall => by
        rw [(reSearchCapture_eq_none_iff computedPat s).mpr hall] at h1
        cases h1
      simp only [extract_smiles_from_comments, h1]
      constructor
      · intro hx; cases hx
      · rintro ⟨hall, _⟩; exact absurd hall hno
    | none =>
      cases h2 : reSearchCapture smilesPat s with
      | some g =>
        have hno : ¬ ∀ j, matchAt smilesPat s j = false := fun hall => by
          rw [(reSearchCapture_eq_none_iff smilesPat s).mpr hall] at h2
          cases h2
        simp only [extract_smiles_from_comments, h1, h2]
        constructor
        · intro hx; cases hx
        · rintro ⟨_, hall⟩; exact absurd hall hno
      | none =>
        simp only [extract_smiles_from_comments, h1, h2]
        exact ⟨fun _ => ⟨(reSearchCapture_eq_none_iff computedPat s).mp h1,
            (reSearchCapture_eq_none_iff smilesPat s).mp h2⟩, fun _ => trivial⟩
  · intro h hmin
    have hsome := reSearchCapture_eq_some_of computedPat s i h hmin
    simp only [extract_smiles_from_comments, hsome]
  · intro hall h hmin
    have h1 : reSearchCapture computedPat s = none :=
      (reSearchCapture_eq_none_iff computedPat s).mpr hall
    have h2 := reSearchCapture_eq_some_of smilesPat s i h hmin
    simp only [extract_smiles_from_comments, h1, h2]
  · intro pat
    unfold capAt
    exact captureRun_spec (s.drop (i + pat.length))

/-- Witness for C4 at a concrete comment string: the `computed SMILES=`
occurrence at position 2 is the leftmost match, its maximal capture is
stripped, and the result is `CCO`. -/
theorem c4_witness :
    matchAt computedPat (String.toList ("x computed SMILES= CCO\"y")) 2 = true
    ∧ extract_smiles_from_comments (Cell.str (String.toList ("x computed SMILES= CCO\"y")))
        = some (pyStrip (capAt computedPat (String.toList ("x computed SMILES= CCO\"y")) 2))
    ∧ pyStrip (capAt computedPat (String.toList ("x computed SMILES= CCO\"y")) 2)
        = String.toList ("CCO") :=
  ⟨by decide,
   (c4_extract_smiles (Cell.str (String.toList ("x computed SMILES= CCO\"y")))
      (String.toList ("x computed SMILES= CCO\"y")) 2).2.2.1 (by decide) (by decide),
   by decide⟩

lemma mem_bad_iff (mol : Chars → Bool) (sm : List Cell) (i : Nat) :
    i ∈ (sm.enum.filter fun q => rowInvalid mol q.2).map Prod.fst ↔
      ∃ c, sm[i]? = some c ∧ rowInvalid mol c = true := by
  simp only [List.mem_map, List.mem_filter]
  constructor
  · rintro ⟨⟨j, c⟩, ⟨hmem, hinv⟩, rfl⟩
    exact ⟨c, List.mk_mem_enum_iff_getElem?.mp hmem, hinv⟩
  · rintro ⟨c, hc, hinv⟩
    exact ⟨(i, c), ⟨List.mk_mem_enum_iff_getElem?.mpr hc, hinv⟩, rfl⟩

lemma enum_filter_zip (keep : Nat → Bool) (q : Cell → Bool) :
    ∀ (sm v : List Cell) (k : Nat), v.length = sm.length →
      (∀ i, i < sm.length → ∀ c, sm[i]? = some c → keep (k + i) = q c) →
      ((v.enumFrom k).filter fun z => keep z.1).map Prod.snd
        = ((sm.zip v).filter fun z => q z.1).map Prod.snd := by
  intro sm
  induction sm with
  | nil =>
    intro v k hl _
    obtain rfl : v = [] := List.length_eq_zero.mp (by simpa using hl)
    rfl
  | cons a sm ih =>
    intro v k hl hpt
    cases v with
    | nil => simp at hl
    | cons x xs =>
      have hlen : xs.length = sm.length := by simpa using hl
      have h0 : keep k = q a := by
        have := hpt 0 (by simp) a (by simp)
        simpa using this
      have hsh : ∀ i, i < sm.length → ∀ c, sm[i]? = some c → keep ((k + 1) + i) = q c := by
        intro i hi c hc
        have := hpt (i + 1) (by simp only [List.length_cons]; omega) c
          (by rw [List.getElem?_cons_succ]; exact hc)
        rw [show k + (i + 1) = (k + 1) + i from by omega] at this
        exact this
      rw [List.enumFrom_cons, List.zip_cons_cons]
      simp only [List.filter_cons]
      cases hq : q a with
      | false =>
        simp only [h0, hq, Bool.false_eq_true, if_false]
        exact ih xs (k + 1) hlen hsh
      | true =>
        simp only [h0, hq, if_true]
        simp only [List.map_cons]
        rw [ih xs (k + 1) hlen hsh]

lemma validate_filter_eq (mol : Chars → Bool) (sm v : List Cell) (hl : v.length = sm.length) :
    ((v.enum.filter fun z =>
        !(decide (z.1 ∈ (sm.enum.filter fun q => rowInvalid mol q.2).map Prod.fst))).map Prod.snd)
      = keepValidRows mol sm v := by
  unfold keepValidRows
  have hpt : ∀ i, i < sm.length → ∀ c, sm[i]? = some c →
      (fun j => !(decide (j ∈ (sm.enum.filter fun q => rowInvalid mol q.2).map Prod.fst))) (0 + i)
        = (fun c => !(rowInvalid mol c)) c := by
    intro i hi c hc
    simp only [Nat.zero_add]
    congr 1
    cases hinv : rowInvalid mol c with
    | false =>
      have hnot : ¬ i ∈ (sm.enum.filter fun q => rowInvalid mol q.2).map Prod.fst := by
        rw [mem_bad_iff]
        rintro ⟨c2, hc2, hinv2⟩
        rw [hc] at hc2
        injection hc2 with h2
        rw [h2, hinv2] at hinv
        cases hinv
      simp [hnot]
    | true =>
      have hin : i ∈ (sm.enum.filter fun q => rowInvalid mol q.2).map Prod.fst :=
        (mem_bad_iff mol sm i).mpr ⟨c, hc, hinv⟩
      simp [hin]
  exact enum_filter_zip
    (fun j => !(decide (j ∈ (sm.enum.filter fun q => rowInvalid mol q.2).map Prod.fst)))
    (fun c => !(rowInvalid mol c)) sm v 0 hl hpt

lemma bad_isEmpty_false (mol : Chars → Bool) (sm : List Cell)
    (hex : ∃ c ∈ sm, rowInvalid mol c = true) :
    ((sm.enum.filter fun q => rowInvalid mol q.2).map Prod.fst).isEmpty = false := by
  obtain ⟨c, hcmem, hinv⟩ := hex
  have hjx : ∃ n : Nat, sm[n]? = some c := by
    obtain ⟨n, hn, rfl⟩ := List.getElem_of_mem hcmem
    exact ⟨n, by simp [List.getElem?_eq_getElem hn]⟩
  obtain ⟨n, hn⟩ := hjx
  have hmem : n ∈ (sm.enum.filter fun q => rowInvalid mol q.2).map Prod.fst :=
    (mem_bad_iff mol sm n).mpr ⟨c, hn, hinv⟩
  cases hb : (sm.enum.filter fun q => rowInvalid mol q.2).map Prod.fst with
  | nil => rw [hb] at hmem; cases hmem
  | cons b l => rfl

lemma bad_eq_nil_of_all_valid (mol : Chars → Bool) (sm : List Cell)
    (hval : ∀ c ∈ sm, rowInvalid mol c = false) :
    ((sm.enum.filter fun q => rowInvalid mol q.2).map Prod.fst) = [] := by
  cases hb : (sm.enum.filter fun q => rowInvalid mol q.2).map Prod.fst with
  | nil => rfl
  | cons b l =>
    exfalso
    have hmem : b ∈ (sm.enum.filter fun q => rowInvalid mol q.2).map Prod.fst := by
      rw [hb]; exact List.mem_cons_self b l
    obtain ⟨c, hc, hinv⟩ := (mem_bad_iff mol sm b).mp hmem
    have := hval c (List.getElem?_mem hc)
    rw [this] at hinv
    cases hinv

/-- C3: `validate_smiles` classifies a row as invalid exactly when its
SMILES is missing or `Chem.MolFromSmiles` returns `None`; if no row is
invalid the DataFrame is returned unchanged; if some row is invalid it
returns `None` when the user declines the confirmation dialog, and
otherwise returns the DataFrame with exactly the invalid rows removed
(every column filtered to the positions whose SMILES cell is valid); a
DataFrame without a `smiles` column is returned unchanged. -/
theorem c3_validate_smiles (mol : Chars → Bool) (resp : Bool) (df : DataFrame) (sm : List Cell)
    (hsm : getCol? df "smiles" = some sm)
    (hrect : ∀ p ∈ df, (p.2 : List Cell).length = sm.length) :
    (∀ c, rowInvalid mol c = true ↔ (cellIsNA c = true ∨ mol (pyStr c) = false))
    ∧ (∀ df2, getCol? df2 "smiles" = none → validate_smiles mol resp df2 = some df2)
    ∧ ((∀ c ∈ sm, rowInvalid mol c = false) → validate_smiles mol resp df = some df)
    ∧ ((∃ c ∈ sm, rowInvalid mol c = true) → resp = false →
        validate_smiles mol resp df = none)
    ∧ ((∃ c ∈ sm, rowInvalid mol c = true) → resp = true →
        validate_smiles mol resp df
          = some (df.map fun p => (p.1, keepValidRows mol sm p.2))) := by
  refine ⟨?_, ?_, ?_, ?_, ?_⟩
  · intro c
    simp [rowInvalid]
  · intro df2 h
    simp [validate_smiles, h]
  · intro hval
    simp only [validate_smiles, hsm]
    rw [bad_eq_nil_of_all_valid mol sm hval]
    rfl
  · intro hex hresp
    subst hresp
    simp only [validate_smiles, hsm]
    rw [bad_isEmpty_false mol sm hex]
    simp
  · intro hex hresp
    subst hresp
    simp only [validate_smiles, hsm]
    rw [bad_isEmpty_false mol sm hex]
    simp only [Bool.false_eq_true, if_false, if_true]
    refine congrArg some (List.map_congr_left ?_)
    intro p hp
    have hfe := validate_filter_eq mol sm p.2 (hrect p hp)
    exact congrArg (fun w => (p.1, w)) hfe

/-- Witness for C3 at a concrete frame: the row with an empty SMILES is
invalid and, with the user confirming, both columns lose exactly that
row. -/
theorem c3_witness :
    getCol? c3df "smiles" = some c3sm
    ∧ (∃ c ∈ c3sm, rowInvalid c3mol c = true)
    ∧ validate_smiles c3mol true c3df
        = some (c3df.map fun p => (p.1, keepValidRows c3mol c3sm p.2))
    ∧ c3df.map (fun p => (p.1, keepValidRows c3mol c3sm p.2))
        = [("smiles", [Cell.str ['C']]), ("peaks", [Cell.val 1])] :=
  ⟨by decide, by decide,
   (c3_validate_smiles c3mol true c3df c3sm (by decide) (by decide)).2.2.2.2 (by decide) rfl,
   by decide⟩

end SD
